import Mathlib

/-!
Verification development for the openclaw plugin extension runtime.

The plugin core itself (loader, hook runner, logger normalization) ships
outside the sampled sources; only its tests are present
(src/plugins/logger-this-binding.test.ts, src/plugins/hooks.before-agent-start.test.ts).
Those components are therefore modelled from the specification text, as the
doc comments on each definition state.  The installer step
(src/infra/install-package-dir.ts) and the filesystem audit helpers
(src/security/audit-fs.ts) are present in the sources and are embedded from
the code directly.
-/

namespace OpenClaw

/-! ## Receiver-preserving logger adapter -/

/-- A duck-typed logger method as JavaScript sees it: the receiver (the
logger instance's internal state, read through the implicit self reference
at call time) is an explicit first argument, the message the second, and the
result is the updated instance state. -/
def LoggerMethod (σ : Type) : Type := σ → String → σ

/-- Modelled from the spec: the host-supplied duck-typed logger object
structurally matching info/warn/error with optional debug (the loader's
logger normalization and its PluginLogger type are not under src/; only the
regression test logger-this-binding.test.ts is).  The type parameter is the
instance's internal mutable state (prefix, counters, buffers). -/
structure HostLogger (σ : Type) where
  info : LoggerMethod σ
  warn : LoggerMethod σ
  error : LoggerMethod σ
  debug : Option (LoggerMethod σ)

/-- Modelled from the spec: the plugin-facing logger surface.  Each method is
a closure already bound to the original logger's receiver, so it takes only
the message and transforms the original instance's state. -/
structure WrappedLogger (σ : Type) where
  info : String → σ → σ
  warn : String → σ → σ
  error : String → σ → σ
  debug : Option (String → σ → σ)

/-- Modelled from the spec: the receiver-preserving adapter binds each
method of the host logger to its original receiver at wrap time, and exposes
a debug method exactly when the original logger has one (it never fabricates
one). -/
def normalizeLogger {σ : Type} (lg : HostLogger σ) : WrappedLogger σ where
  info := fun msg s => lg.info s msg
  warn := fun msg s => lg.warn s msg
  error := fun msg s => lg.error s msg
  debug := lg.debug.map (fun d => fun msg s => d s msg)

/-- One logger call issued by plugin code through the plugin-facing surface. -/
inductive LogCall
  | info (msg : String)
  | warn (msg : String)
  | error (msg : String)
  | debug (msg : String)

/-- Execute one call directly on the original logger instance (receiver =
the instance itself).  A debug call on a logger without a debug method is a
no-op, mirroring the test's guarded call pattern. -/
def HostLogger.runCall {σ : Type} (lg : HostLogger σ) (s : σ) : LogCall → σ
  | .info m => lg.info s m
  | .warn m => lg.warn s m
  | .error m => lg.error s m
  | .debug m =>
    match lg.debug with
    | some d => d s m
    | none => s

/-- Execute one call through the wrapped plugin-facing surface, threading the
original instance's state. -/
def WrappedLogger.runCall {σ : Type} (w : WrappedLogger σ) (s : σ) : LogCall → σ
  | .info m => w.info m s
  | .warn m => w.warn m s
  | .error m => w.error m s
  | .debug m =>
    match w.debug with
    | some d => d m s
    | none => s

/-- A sequence of calls on the original logger instance. -/
def HostLogger.runCalls {σ : Type} (lg : HostLogger σ) (s : σ) (calls : List LogCall) : σ :=
  calls.foldl lg.runCall s

/-- A sequence of calls through the wrapped surface. -/
def WrappedLogger.runCalls {σ : Type} (w : WrappedLogger σ) (s : σ) (calls : List LogCall) : σ :=
  calls.foldl w.runCall s

/-! ## Restricted configuration values and the manifest validator -/

/-- A JSON-like configuration value, as read from the host configuration. -/
inductive ConfigValue
  | obj (fields : List (String × ConfigValue))
  | arr (items : List ConfigValue)
  | str (s : String)
  | num (n : Int)
  | boolean (b : Bool)
  | null

/-- Modelled from the spec: the restricted configuration schema of a plugin
manifest — object type, an explicit set of declared property names, and
additionalProperties false enforced (the manifest validator is not under
src/). -/
structure ConfigSchema where
  properties : List String

/-- Modelled from the spec: a parsed plugin manifest — identifier plus the
restricted configuration schema. -/
structure PluginManifest where
  id : String
  configSchema : ConfigSchema

/-- A configuration validation failure: the value is not an object, or it
carries a property the schema does not declare. -/
inductive ValidationError
  | notObject
  | unknownProperty (name : String)

/-- The human-readable detail string for a validation failure; the
unknown-property case names the offending property. -/
def ValidationError.detail : ValidationError → String
  | .notObject => "config must be an object"
  | .unknownProperty n => "unknown config property: " ++ n

/-- Modelled from the spec: the manifest validator.  The configuration must
be an object (arrays and primitives are rejected), and every property it
carries must be declared in the schema — extra properties are a hard
rejection naming the property, not a silent drop. -/
def validateConfig (schema : ConfigSchema) (cfg : ConfigValue) :
    Except ValidationError (List (String × ConfigValue)) :=
  match cfg with
  | .obj fields =>
    match fields.find? (fun f => !(schema.properties.contains f.1)) with
    | some f => .error (.unknownProperty f.1)
    | none => .ok fields
  | _ => .error .notObject

/-! ## Loader data model -/

/-- Modelled from the spec: the per-plugin host configuration entry
(plugins.entries[id]) — an enabled flag and an optional configuration
override object. -/
structure PluginConfigEntry where
  enabled : Bool
  config : Option ConfigValue

/-- Modelled from the spec: the allow-list (plugins.allow) — absent, the
wildcard value permitting all ids, or a concrete list of permitted ids. -/
inductive AllowList
  | absent
  | wildcard
  | listed (ids : List String)

/-- Modelled from the spec: the plugins section of the host configuration. -/
structure PluginsConfig where
  allow : AllowList
  entries : List (String × PluginConfigEntry)

/-- Terminal status of one discovered plugin after a load. -/
inductive PluginStatus
  | loaded
  | error
  | skipped
deriving DecidableEq

/-- One outcome record per discovered plugin. -/
structure PluginOutcome where
  id : String
  status : PluginStatus
  error : Option String

/-- The registry collection a registration goes into. -/
inductive RegKind
  | hook
  | typedHook
  | tool
  | command
  | channel
  | skill
  | memory
deriving DecidableEq

/-- A registration as a plugin stages it through an addX function of its
capability surface: the target collection and the registered name (hook
name, tool name, ...).  The owning plugin id is attached by the loader. -/
structure StagedRegistration where
  kind : RegKind
  name : String

/-- A registration as it lands in the shared registry, tagged with the
owning plugin id. -/
structure Registration where
  kind : RegKind
  pluginId : String
  name : String

/-- Modelled from the spec: the ephemeral capability surface handed to a
plugin's register entrypoint — scoped logger (produced by the
receiver-preserving adapter, never the raw host logger), the validated
configuration, and the plugin id the addX functions tag registrations
with. -/
structure CapabilitySurface (σ : Type) where
  pluginId : String
  logger : WrappedLogger σ
  config : List (String × ConfigValue)

/-- Modelled from the spec: one discovered plugin directory as the loader
sees it — its id, the manifest parse outcome, the code import outcome, and
the register entrypoint.  The entrypoint receives the capability surface and
either rejects with a thrown message (synchronously or asynchronously) or
returns the registrations it staged through the addX functions. -/
structure DiscoveredPlugin (σ : Type) where
  id : String
  manifest : Except String PluginManifest
  importResult : Except String Unit
  register : CapabilitySurface σ → Except String (List StagedRegistration)

/-- The aggregate load result: one outcome per discovered plugin plus the
registry collections, each in registration order across plugins. -/
structure PluginRegistryData where
  plugins : List PluginOutcome
  hooks : List Registration
  typedHooks : List Registration
  tools : List Registration
  commands : List Registration
  channelPlugins : List Registration
  skillPlugins : List Registration
  memoryPlugins : List Registration

/-- Look up the host configuration entry for a plugin id. -/
def entryFor (cfg : PluginsConfig) (id : String) : Option PluginConfigEntry :=
  (cfg.entries.find? (fun e => e.1 == id)).map (fun e => e.2)

/-- Modelled from the spec: a plugin id is disabled only by an entry whose
enabled flag is false; ids without an entry are enabled. -/
def pluginEnabled (cfg : PluginsConfig) (id : String) : Bool :=
  match entryFor cfg id with
  | some e => e.enabled
  | none => true

/-- Modelled from the spec: the effective raw configuration object for a
plugin — the entry's override object when present, an empty object
otherwise. -/
def rawConfigFor (cfg : PluginsConfig) (id : String) : ConfigValue :=
  match (entryFor cfg id).bind (fun e => e.config) with
  | some v => v
  | none => ConfigValue.obj []

/-- Modelled from the spec: whether the allow-list permits a plugin id past
the allow-list check — absent and wildcard permit every id, a concrete list
permits exactly the listed ids. -/
def allowPermits : AllowList → String → Bool
  | .absent, _ => true
  | .wildcard, _ => true
  | .listed ids, id => ids.contains id

/-- Modelled from the spec: the capability surface builder — scoped logger
produced by the receiver-preserving adapter, validated configuration, and
the owning plugin id. -/
def buildCapabilitySurface {σ : Type} (pluginId : String)
    (validated : List (String × ConfigValue)) (lg : HostLogger σ) : CapabilitySurface σ :=
  { pluginId := pluginId, logger := normalizeLogger lg, config := validated }

/-- Modelled from the spec (§4.4 state machine): process one discovered
plugin given the ids already loaded; returns its outcome record and its
staged registrations (nonempty only when the outcome is loaded —
registration is all-or-nothing per plugin, staged registrations of a
throwing register are discarded). -/
def loadOnePlugin {σ : Type} (cfg : PluginsConfig) (lg : HostLogger σ)
    (loadedIds : List String) (p : DiscoveredPlugin σ) :
    PluginOutcome × List StagedRegistration :=
  if allowPermits cfg.allow p.id = false then
    (⟨p.id, .skipped, none⟩, [])
  else if pluginEnabled cfg p.id = false then
    (⟨p.id, .skipped, none⟩, [])
  else if loadedIds.contains p.id then
    (⟨p.id, .error, some ("duplicate plugin id: " ++ p.id)⟩, [])
  else
    match p.manifest with
    | .error e => (⟨p.id, .error, some ("manifest parse failed: " ++ e)⟩, [])
    | .ok man =>
      match validateConfig man.configSchema (rawConfigFor cfg p.id) with
      | .error ve => (⟨p.id, .error, some ve.detail⟩, [])
      | .ok validated =>
        match p.importResult with
        | .error e => (⟨p.id, .error, some ("import failed: " ++ e)⟩, [])
        | .ok _ =>
          match p.register (buildCapabilitySurface p.id validated lg) with
          | .error msg => (⟨p.id, .error, some msg⟩, [])
          | .ok staged => (⟨p.id, .loaded, none⟩, staged)

/-- Process the discovered plugins in discovery order, threading the set of
ids that have reached loaded; each plugin yields its outcome and its staged
registrations tagged with its own id. -/
def processPlugins {σ : Type} (cfg : PluginsConfig) (lg : HostLogger σ) :
    List String → List (DiscoveredPlugin σ) → List (PluginOutcome × List Registration)
  | _, [] => []
  | loadedIds, p :: rest =>
    let r := loadOnePlugin cfg lg loadedIds p
    let tagged := r.2.map (fun s => ⟨s.kind, p.id, s.name⟩)
    (r.1, tagged) ::
      processPlugins cfg lg
        (if r.1.status = PluginStatus.loaded then loadedIds ++ [p.id] else loadedIds) rest

/-- The ids that have reached loaded after processing a list of plugins,
starting from a given set. -/
def loadedAfter {σ : Type} (cfg : PluginsConfig) (lg : HostLogger σ) :
    List String → List (DiscoveredPlugin σ) → List String
  | ids, [] => ids
  | ids, p :: rest =>
    loadedAfter cfg lg
      (if (loadOnePlugin cfg lg ids p).1.status = PluginStatus.loaded then ids ++ [p.id] else ids)
      rest

/-- Select the registrations destined for one registry collection, in
order. -/
def collectKind (k : RegKind) (rs : List Registration) : List Registration :=
  rs.filter (fun r => r.kind == k)

/-- All registrations merged into the registry over one load, in
registration order across plugins. -/
def allRegs {σ : Type} (cfg : PluginsConfig) (lg : HostLogger σ)
    (ps : List (DiscoveredPlugin σ)) : List Registration :=
  ((processPlugins cfg lg [] ps).map (fun r => r.2)).flatten

/-- Modelled from the spec: the loader entry point.  It is a total
function — every loader-time failure is recovered into that plugin's outcome
record, nothing is thrown to the caller — and produces one outcome per
discovered plugin plus the merged registry collections, containing entries
only from plugins whose outcome is loaded. -/
def loadOpenClawPlugins {σ : Type} (cfg : PluginsConfig) (lg : HostLogger σ)
    (ps : List (DiscoveredPlugin σ)) : PluginRegistryData :=
  { plugins := (processPlugins cfg lg [] ps).map (fun r => r.1)
    hooks := collectKind .hook (allRegs cfg lg ps)
    typedHooks := collectKind .typedHook (allRegs cfg lg ps)
    tools := collectKind .tool (allRegs cfg lg ps)
    commands := collectKind .command (allRegs cfg lg ps)
    channelPlugins := collectKind .channel (allRegs cfg lg ps)
    skillPlugins := collectKind .skill (allRegs cfg lg ps)
    memoryPlugins := collectKind .memory (allRegs cfg lg ps) }

/-- A plugin every loader step accepts: allow-listed, enabled, parseable
manifest, valid configuration, importable code, and a register entrypoint
that returns without throwing. -/
def CleanLoad {σ : Type} (cfg : PluginsConfig) (lg : HostLogger σ)
    (q : DiscoveredPlugin σ) : Prop :=
  allowPermits cfg.allow q.id = true ∧ pluginEnabled cfg q.id = true ∧
    ∃ man v staged, q.manifest = Except.ok man ∧
      validateConfig man.configSchema (rawConfigFor cfg q.id) = Except.ok v ∧
      q.importResult = Except.ok () ∧
      q.register (buildCapabilitySurface q.id v lg) = Except.ok staged

/-- The loader-time failures of the spec's taxonomy for one plugin: manifest
parse failure, configuration schema validation failure, code import failure,
or a register entrypoint that throws/rejects. -/
def LoaderTimeFailure {σ : Type} (cfg : PluginsConfig) (lg : HostLogger σ)
    (p : DiscoveredPlugin σ) : Prop :=
  (∃ e, p.manifest = Except.error e) ∨
  (∃ man ve, p.manifest = Except.ok man ∧
    validateConfig man.configSchema (rawConfigFor cfg p.id) = Except.error ve) ∨
  (∃ man v e, p.manifest = Except.ok man ∧
    validateConfig man.configSchema (rawConfigFor cfg p.id) = Except.ok v ∧
    p.importResult = Except.error e) ∨
  (∃ man v msg, p.manifest = Except.ok man ∧
    validateConfig man.configSchema (rawConfigFor cfg p.id) = Except.ok v ∧
    p.importResult = Except.ok () ∧
    p.register (buildCapabilitySurface p.id v lg) = Except.error msg)

/-! ## Hook runner (before_agent_start) -/

/-- The input of the before_agent_start lifecycle event. -/
structure BeforeAgentStartInput where
  prompt : String

/-- The per-run context handed to hook handlers. -/
structure HookContext where
  agentId : String

/-- The result shape of the before_agent_start typed hook: an override field
(systemPrompt) and an additive field (prependContext), each optional. -/
structure BeforeAgentStartResult where
  systemPrompt : Option String
  prependContext : Option String

/-- The merged result with no contributions. -/
def emptyBeforeAgentStartResult : BeforeAgentStartResult :=
  { systemPrompt := none, prependContext := none }

/-- Modelled from the spec: the per-field merge policy of
before_agent_start.  systemPrompt is an override field — the last
non-undefined contribution wins; prependContext is an additive field —
retained unchanged from a single contributor, ordered concatenation (later
contributions appended) when several contribute. -/
def mergeBeforeAgentStart (acc r : BeforeAgentStartResult) : BeforeAgentStartResult where
  systemPrompt :=
    match r.systemPrompt with
    | some v => some v
    | none => acc.systemPrompt
  prependContext :=
    match acc.prependContext, r.prependContext with
    | none, x => x
    | some a, none => some a
    | some a, some b => some (a ++ b)

/-- Modelled from the spec: one typed-hook registration for
before_agent_start as it sits in the registry — owning plugin id, the hook
name it registered for, and the handler.  A handler either settles with a
partial result or throws/rejects with a message. -/
structure TypedHookEntry where
  pluginId : String
  hookName : String
  handler : BeforeAgentStartInput → HookContext → Except String BeforeAgentStartResult

/-- The observable trace of one hook run: the merged result (absent when an
error propagated to the caller), the plugin ids whose handlers were invoked
in order, the plugin ids whose handlers threw, and the error propagated to
the caller when catchErrors is off. -/
structure HookRunOutcome where
  result : Option BeforeAgentStartResult
  executed : List String
  failed : List String
  propagated : Option String

/-- Modelled from the spec: the sequential left-to-right fold of the hook
runner over the selected handlers.  With catchErrors on, a throwing handler
contributes no fields and the remaining handlers still execute; with
catchErrors off, the first thrown error propagates and no later handler
executes. -/
def runHandlersFrom (catchErrors : Bool) (input : BeforeAgentStartInput) (ctx : HookContext)
    (acc : BeforeAgentStartResult) : List TypedHookEntry → HookRunOutcome
  | [] => { result := some acc, executed := [], failed := [], propagated := none }
  | h :: rest =>
    match h.handler input ctx with
    | .ok r =>
      let o := runHandlersFrom catchErrors input ctx (mergeBeforeAgentStart acc r) rest
      { o with executed := h.pluginId :: o.executed }
    | .error e =>
      if catchErrors then
        let o := runHandlersFrom catchErrors input ctx acc rest
        { o with executed := h.pluginId :: o.executed, failed := h.pluginId :: o.failed }
      else
        { result := none, executed := [h.pluginId], failed := [h.pluginId], propagated := some e }

/-- Modelled from the spec: the runner method for before_agent_start —
select every registered typed-hook entry whose hook name equals the event,
in registry order, and fold their results per the event's merge policy. -/
def runBeforeAgentStart (typedHooks : List TypedHookEntry) (catchErrors : Bool)
    (input : BeforeAgentStartInput) (ctx : HookContext) : HookRunOutcome :=
  runHandlersFrom catchErrors input ctx emptyBeforeAgentStartResult
    (typedHooks.filter (fun h => h.hookName == "before_agent_start"))

/-- The successful contributions of a handler list at a given input, in
order (throwing handlers contribute nothing). -/
def okResults (input : BeforeAgentStartInput) (ctx : HookContext)
    (hs : List TypedHookEntry) : List BeforeAgentStartResult :=
  hs.filterMap (fun h => (h.handler input ctx).toOption)

/-- The additive-field combination: no contribution yields none, otherwise
the ordered concatenation of all contributions (a single contribution is
retained unchanged). -/
def joinContribs : List String → Option String
  | [] => none
  | c :: cs => some (cs.foldl (fun a b => a ++ b) c)

/-! ## Concrete sample values used to exercise the model -/

/-- A trivial host logger over a unit state. -/
def unitLogger : HostLogger Unit where
  info := fun s _ => s
  warn := fun s _ => s
  error := fun s _ => s
  debug := none

/-- A host configuration with the wildcard allow-list and no entries. -/
def cfgAllowAll : PluginsConfig :=
  { allow := AllowList.wildcard, entries := [] }

/-- A plugin that passes every loader step and stages one tool
registration. -/
def goodPlugin (id : String) : DiscoveredPlugin Unit where
  id := id
  manifest := Except.ok { id := id, configSchema := { properties := [] } }
  importResult := Except.ok ()
  register := fun _ => Except.ok [{ kind := RegKind.tool, name := "tool-" ++ id }]

/-- A plugin whose register entrypoint stages one tool registration and then
throws. -/
def badRegisterPlugin (id : String) : DiscoveredPlugin Unit where
  id := id
  manifest := Except.ok { id := id, configSchema := { properties := [] } }
  importResult := Except.ok ()
  register := fun _ => Except.error "register blew up"

/-- A plugin whose manifest does not parse. -/
def badManifestPlugin (id : String) : DiscoveredPlugin Unit where
  id := id
  manifest := Except.error "unexpected token"
  importResult := Except.ok ()
  register := fun _ => Except.ok []

/-- The first plugin of the before_agent_start merge scenario. -/
def pluginAEntry : TypedHookEntry where
  pluginId := "plugin-a"
  hookName := "before_agent_start"
  handler := fun _ _ => Except.ok { systemPrompt := some "Prompt A", prependContext := none }

/-- The second plugin of the before_agent_start merge scenario. -/
def pluginBEntry : TypedHookEntry where
  pluginId := "plugin-b"
  hookName := "before_agent_start"
  handler := fun _ _ => Except.ok { systemPrompt := some "Prompt B", prependContext := none }

/-- A hook entry contributing only an additive prependContext value. -/
def pluginCtxEntry1 : TypedHookEntry where
  pluginId := "ctx-one"
  hookName := "before_agent_start"
  handler := fun _ _ => Except.ok { systemPrompt := none, prependContext := some "Alpha" }

/-- A second hook entry contributing only an additive prependContext
value. -/
def pluginCtxEntry2 : TypedHookEntry where
  pluginId := "ctx-two"
  hookName := "before_agent_start"
  handler := fun _ _ => Except.ok { systemPrompt := none, prependContext := some "Beta" }

/-- A hook entry whose handler throws. -/
def failingEntry : TypedHookEntry where
  pluginId := "failing-plugin"
  hookName := "before_agent_start"
  handler := fun _ _ => Except.error "handler crashed"

/-- A host configuration whose allow-list names only the id alpha. -/
def cfgListedAlpha : PluginsConfig :=
  { allow := AllowList.listed ["alpha"], entries := [] }

/-- A host configuration that disables the id beta. -/
def cfgDisabledBeta : PluginsConfig :=
  { allow := AllowList.wildcard
    entries := [("beta", { enabled := false, config := none })] }

/-- A host configuration whose entry for beta carries a configuration
object with the undeclared key foo. -/
def cfgWithFoo : PluginsConfig :=
  { allow := AllowList.wildcard
    entries := [("beta",
      { enabled := true
        config := some (ConfigValue.obj [("foo", ConfigValue.str "bar")]) })] }

/-! ## installPackageDir (src/infra/install-package-dir.ts)

Directory contents are abstract (type parameter); the effect of
sanitizeManifestForNpmInstall and of the npm install run on the target
directory's contents are abstract transformations, and the outcome of each
fallible step (fs.cp, the afterCopy callback, the npm child process) is part
of the parameters.  The two filesystem locations the function touches — the
target directory and the backup directory it creates under
.openclaw-install-backups — are modelled explicitly. -/

/-- The mode parameter of installPackageDir. -/
inductive InstallMode
  | install
  | update
deriving DecidableEq

/-- The contents at the two filesystem locations installPackageDir touches;
none means the directory does not exist. -/
structure InstallFsState (α : Type) where
  target : Option α
  backup : Option α

/-- The result value of installPackageDir: ok true, or ok false with an
error message. -/
inductive InstallResult
  | ok
  | error (message : String)
deriving DecidableEq

/-- The parameters of one installPackageDir call, with each fallible step's
outcome made explicit: whether fs.cp succeeds (and what it leaves behind
when it fails), whether the afterCopy callback returns or throws, and the
npm child process exit code and output. -/
structure InstallParams (α : Type) where
  sourceDir : α
  mode : InstallMode
  copyOk : Bool
  copyLeftover : Option α
  copyErr : String
  copyErrorMark : String
  afterCopyOk : Bool
  afterCopyErr : String
  hasDeps : Bool
  sanitizeManifest : α → α
  npmEffect : α → α
  npmCode : Int
  npmStderr : String
  npmStdout : String

/-- The rollback helper of installPackageDir: when a backup was taken,
remove the target and rename the backup back into place; otherwise do
nothing (the real rollback swallows its own filesystem errors; filesystem
primitives are assumed to succeed here). -/
def rollbackFs {α : Type} (hasBackup : Bool) (fs : InstallFsState α) : InstallFsState α :=
  if hasBackup then { target := fs.backup, backup := none } else fs

/-- The trailing success path of installPackageDir: remove the backup when
one was taken, then return ok. -/
def finishInstall {α : Type} (hasBackup : Bool) (fs : InstallFsState α) :
    InstallFsState α × InstallResult :=
  ({ fs with backup := if hasBackup then none else fs.backup }, .ok)

/-- The error detail of a failed npm install:
stderr trimmed, or stdout trimmed when stderr is empty. -/
def npmErrorDetail {α : Type} (p : InstallParams α) : String :=
  if p.npmStderr.trim = "" then p.npmStdout.trim else p.npmStderr.trim

/-- The body of installPackageDir after the backup decision: copy, afterCopy
callback, optional dependency install (manifest sanitization then npm), each
failure rolling back, then backup removal on success.  Mirrors
src/infra/install-package-dir.ts lines 94-133 (copyErrorMark stands for the
caller-supplied message label prepended to a copy failure). -/
def installPackageDirSteps {α : Type} (p : InstallParams α) (hasBackup : Bool)
    (fs1 : InstallFsState α) : InstallFsState α × InstallResult :=
  if p.copyOk = false then
    (rollbackFs hasBackup { fs1 with target := p.copyLeftover },
      .error (p.copyErrorMark ++ ": " ++ p.copyErr))
  else
    let fs2 : InstallFsState α := { fs1 with target := some p.sourceDir }
    if p.afterCopyOk = false then
      (rollbackFs hasBackup fs2, .error ("post-copy validation failed: " ++ p.afterCopyErr))
    else
      if p.hasDeps then
        let fs3 : InstallFsState α := { fs2 with target := fs2.target.map p.sanitizeManifest }
        if p.npmCode = 0 then
          finishInstall hasBackup { fs3 with target := fs3.target.map p.npmEffect }
        else
          (rollbackFs hasBackup fs3, .error ("npm install failed: " ++ npmErrorDetail p))
      else
        finishInstall hasBackup fs2

/-- installPackageDir (src/infra/install-package-dir.ts): in update mode
with an existing target, the target is first renamed into a fresh backup
directory; the copy, afterCopy and npm steps then run with rollback on
failure. -/
def installPackageDir {α : Type} (p : InstallParams α) (fs0 : InstallFsState α) :
    InstallFsState α × InstallResult :=
  if p.mode = InstallMode.update ∧ fs0.target.isSome then
    installPackageDirSteps p true { target := none, backup := fs0.target }
  else
    installPackageDirSteps p false fs0

/-- A concrete update-mode call whose afterCopy callback throws. -/
def sampleInstallParams : InstallParams String where
  sourceDir := "fresh-package"
  mode := InstallMode.update
  copyOk := true
  copyLeftover := none
  copyErr := ""
  copyErrorMark := "Failed to copy package"
  afterCopyOk := false
  afterCopyErr := "entry point missing"
  hasDeps := true
  sanitizeManifest := id
  npmEffect := id
  npmCode := 0
  npmStderr := ""
  npmStdout := ""

/-! ## Filesystem audit helpers (src/security/audit-fs.ts) -/

/-- POSIX metadata of a filesystem node as stat reports it. -/
structure NodeMeta where
  mode : Nat
  uid : Int
  gid : Int
  isDir : Bool

/-- The state of one path as observable through fs.lstat and fs.stat:
missing (lstat throws, with its stringified error), a regular node, a
symlink whose target resolves, or a symlink whose target does not (fs.stat
throws, with its stringified error).  On POSIX the symlink node's own lstat
mode is always 0o777; safeStat never reports it for symlinks because it
re-stats the target. -/
inductive PathState
  | missing (lstatErr : String)
  | node (meta : NodeMeta)
  | symlinkTo (target : NodeMeta)
  | brokenSymlink (statErr : String)

/-- The result record of safeStat. -/
structure SafeStatResult where
  ok : Bool
  isSymlink : Bool
  isDir : Bool
  mode : Option Nat
  uid : Option Int
  gid : Option Int
  error : Option String

/-- safeStat (src/security/audit-fs.ts lines 30-88): lstat the path; for
symlinks re-stat to reach the target's metadata, preserving isSymlink on a
broken symlink so callers can distinguish broken symlinks from missing
paths. -/
def safeStat : PathState → SafeStatResult
  | .missing e =>
    { ok := false, isSymlink := false, isDir := false
      mode := none, uid := none, gid := none, error := some e }
  | .node m =>
    { ok := true, isSymlink := false, isDir := m.isDir
      mode := some m.mode, uid := some m.uid, gid := some m.gid, error := none }
  | .symlinkTo t =>
    { ok := true, isSymlink := true, isDir := t.isDir
      mode := some t.mode, uid := some t.uid, gid := some t.gid, error := none }
  | .brokenSymlink e =>
    { ok := false, isSymlink := true, isDir := false
      mode := none, uid := none, gid := none, error := some e }

/-- modeBits (src/security/audit-fs.ts): the permission bits of a mode. -/
def modeBits : Option Nat → Option Nat
  | none => none
  | some m => some (m &&& 0o777)

/-- isWorldWritable (src/security/audit-fs.ts). -/
def isWorldWritable : Option Nat → Bool
  | none => false
  | some bits => (bits &&& 0o002) != 0

/-- isGroupWritable (src/security/audit-fs.ts). -/
def isGroupWritable : Option Nat → Bool
  | none => false
  | some bits => (bits &&& 0o020) != 0

/-- isWorldReadable (src/security/audit-fs.ts). -/
def isWorldReadable : Option Nat → Bool
  | none => false
  | some bits => (bits &&& 0o004) != 0

/-- isGroupReadable (src/security/audit-fs.ts). -/
def isGroupReadable : Option Nat → Bool
  | none => false
  | some bits => (bits &&& 0o040) != 0

/-- The result record of inspectPathPermissions (source field: posix or
unknown; the windows-acl source value cannot arise on the POSIX path). -/
structure PermissionCheck where
  ok : Bool
  isSymlink : Bool
  isDir : Bool
  mode : Option Nat
  bits : Option Nat
  source : String
  worldWritable : Bool
  groupWritable : Bool
  worldReadable : Bool
  groupReadable : Bool
  error : Option String

/-- inspectPathPermissions (src/security/audit-fs.ts lines 90-158), POSIX
branch (the win32 branch delegates to windows-acl.js, which is not among the
sources): stat failure yields a not-ok record, otherwise the permission
flags are computed from the bits safeStat reported. -/
def inspectPathPermissions (ps : PathState) : PermissionCheck :=
  let st := safeStat ps
  if st.ok = false then
    { ok := false, isSymlink := false, isDir := false, mode := none, bits := none
      source := "unknown", worldWritable := false, groupWritable := false
      worldReadable := false, groupReadable := false, error := st.error }
  else
    let bits := modeBits st.mode
    { ok := true, isSymlink := st.isSymlink, isDir := st.isDir, mode := st.mode, bits := bits
      source := "posix", worldWritable := isWorldWritable bits
      groupWritable := isGroupWritable bits, worldReadable := isWorldReadable bits
      groupReadable := isGroupReadable bits, error := none }

/-! ## Helper lemmas -/

theorem normalizeLogger_runCall {σ : Type} (lg : HostLogger σ) (s : σ) (c : LogCall) :
    (normalizeLogger lg).runCall s c = lg.runCall s c := by
  cases c with
  | info m => rfl
  | warn m => rfl
  | error m => rfl
  | debug m =>
    show (match (normalizeLogger lg).debug with
      | some d => d m s
      | none => s) = _
    cases hd : lg.debug with
    | none => simp [normalizeLogger, hd, HostLogger.runCall]
    | some d => simp [normalizeLogger, hd, HostLogger.runCall]

/-! ## C1 -/

/-- C1: every method exposed on the plugin-facing api.logger built by the
loader executes the original host logger's method with the original logger
as its receiver (its own instance state), for info, warn, error, and debug
when present; the wrapped surface exposes a debug method exactly when the
original logger has one, and receiver preservation holds for single and for
repeated calls within one load. -/
theorem c1_logger_receiver_binding {σ : Type} (pid : String)
    (v : List (String × ConfigValue)) (lg : HostLogger σ) :
    (buildCapabilitySurface pid v lg).logger = normalizeLogger lg ∧
    (∀ m s, (normalizeLogger lg).info m s = lg.info s m) ∧
    (∀ m s, (normalizeLogger lg).warn m s = lg.warn s m) ∧
    (∀ m s, (normalizeLogger lg).error m s = lg.error s m) ∧
    (normalizeLogger lg).debug = lg.debug.map (fun d => fun m s => d s m) ∧
    (normalizeLogger lg).debug.isSome = lg.debug.isSome ∧
    (∀ calls s, (normalizeLogger lg).runCalls s calls = lg.runCalls s calls) := by
  refine ⟨rfl, fun m s => rfl, fun m s => rfl, fun m s => rfl, rfl, ?_, ?_⟩
  · cases hd : lg.debug <;> simp [normalizeLogger, hd]
  · intro calls
    induction calls with
    | nil => intro s; rfl
    | cons c cs ih =>
      intro s
      show (normalizeLogger lg).runCalls ((normalizeLogger lg).runCall s c) cs =
        lg.runCalls (lg.runCall s c) cs
      rw [normalizeLogger_runCall, ih]

/-! ## C10 -/

/-- C10: safeStat resolves symlinks to their target's metadata — for a
symlink with an existing target it reports ok, isSymlink, and the target's
mode/uid/gid (so the permission flags inspectPathPermissions computes agree
with those of the target file itself); for a broken symlink it reports not
ok with isSymlink still true and the stat error present; a missing path
reports not ok with isSymlink false. -/
theorem c10_safeStat_symlink_resolution :
    (∀ t : NodeMeta, safeStat (PathState.symlinkTo t) =
      { ok := true, isSymlink := true, isDir := t.isDir, mode := some t.mode
        uid := some t.uid, gid := some t.gid, error := none }) ∧
    (∀ t : NodeMeta,
      ({ inspectPathPermissions (PathState.symlinkTo t) with isSymlink := false } :
        PermissionCheck) = inspectPathPermissions (PathState.node t)) ∧
    (∀ e, safeStat (PathState.brokenSymlink e) =
      { ok := false, isSymlink := true, isDir := false
        mode := none, uid := none, gid := none, error := some e }) ∧
    (∀ e, (safeStat (PathState.brokenSymlink e)).error ≠ none) ∧
    (∀ e, (safeStat (PathState.missing e)).ok = false ∧
      (safeStat (PathState.missing e)).isSymlink = false) := by
  refine ⟨fun t => rfl, fun t => rfl, fun e => rfl, fun e => ?_, fun e => ⟨rfl, rfl⟩⟩
  simp [safeStat]

/-! ## C9 -/

/-- C9: installPackageDir is atomic for the target directory in update mode
when the target already exists — it returns ok exactly when the copy, the
afterCopy callback, and (when dependencies are installed) the npm step all
succeed; on success the backup is removed; on any failure it returns an
error and the target holds its previous contents again, restored from the
backup taken at the start. -/
theorem c9_installPackageDir_update_atomic {α : Type} (p : InstallParams α)
    (fs0 : InstallFsState α) (d0 : α)
    (hmode : p.mode = InstallMode.update) (htgt : fs0.target = some d0) :
    ((installPackageDir p fs0).2 = InstallResult.ok ↔
      (p.copyOk = true ∧ p.afterCopyOk = true ∧ (p.hasDeps = true → p.npmCode = 0))) ∧
    ((installPackageDir p fs0).2 = InstallResult.ok →
      (installPackageDir p fs0).1.backup = none) ∧
    (∀ msg, (installPackageDir p fs0).2 = InstallResult.error msg →
      (installPackageDir p fs0).1.target = some d0 ∧
        (installPackageDir p fs0).1.backup = none) := by
  have hcond : p.mode = InstallMode.update ∧ fs0.target.isSome := by
    refine ⟨hmode, ?_⟩
    rw [htgt]
    rfl
  rw [installPackageDir, if_pos hcond, htgt]
  cases hc : p.copyOk with
  | false =>
    simp [installPackageDirSteps, hc, rollbackFs]
  | true =>
    cases ha : p.afterCopyOk with
    | false =>
      simp [installPackageDirSteps, hc, ha, rollbackFs]
    | true =>
      cases hd : p.hasDeps with
      | false =>
        simp [installPackageDirSteps, hc, ha, hd, finishInstall]
      | true =>
        by_cases hn : p.npmCode = 0
        · simp [installPackageDirSteps, hc, ha, hd, hn, finishInstall]
        · simp [installPackageDirSteps, hc, ha, hd, hn, rollbackFs]

/-- C9 witness: a concrete update-mode call over an existing target whose
afterCopy callback throws; the call reports the failure and the target is
restored. -/
theorem c9_installPackageDir_update_atomic_witness :
    sampleInstallParams.mode = InstallMode.update ∧
    (({ target := some "previous-install", backup := none } : InstallFsState String).target =
      some "previous-install") ∧
    ((installPackageDir sampleInstallParams
        { target := some "previous-install", backup := none }).2 = InstallResult.ok ↔
      (sampleInstallParams.copyOk = true ∧ sampleInstallParams.afterCopyOk = true ∧
        (sampleInstallParams.hasDeps = true → sampleInstallParams.npmCode = 0))) ∧
    ((installPackageDir sampleInstallParams
        { target := some "previous-install", backup := none }).2 = InstallResult.ok →
      (installPackageDir sampleInstallParams
        { target := some "previous-install", backup := none }).1.backup = none) ∧
    (∀ msg, (installPackageDir sampleInstallParams
        { target := some "previous-install", backup := none }).2 = InstallResult.error msg →
      (installPackageDir sampleInstallParams
        { target := some "previous-install", backup := none }).1.target =
          some "previous-install" ∧
        (installPackageDir sampleInstallParams
          { target := some "previous-install", backup := none }).1.backup = none) :=
  ⟨rfl, rfl,
    c9_installPackageDir_update_atomic sampleInstallParams
      { target := some "previous-install", backup := none } "previous-install" rfl rfl⟩

/-! ## Hook runner lemmas -/

theorem runHandlersFrom_all_ok (catchErrors : Bool) (input : BeforeAgentStartInput)
    (ctx : HookContext) :
    ∀ (hs : List TypedHookEntry) (rs : List BeforeAgentStartResult)
      (acc : BeforeAgentStartResult),
      hs.map (fun h => h.handler input ctx) = rs.map Except.ok →
      runHandlersFrom catchErrors input ctx acc hs =
        { result := some (rs.foldl mergeBeforeAgentStart acc)
          executed := hs.map (fun h => h.pluginId), failed := [], propagated := none } := by
  intro hs
  induction hs with
  | nil =>
    intro rs acc hmap
    cases rs with
    | nil => rfl
    | cons r t => simp at hmap
  | cons h t ih =>
    intro rs acc hmap
    cases rs with
    | nil => simp at hmap
    | cons r rt =>
      simp only [List.map_cons, List.cons.injEq] at hmap
      obtain ⟨hh, ht⟩ := hmap
      simp [runHandlersFrom, hh, ih rt (mergeBeforeAgentStart acc r) ht]

theorem runHandlersFrom_catch_all_executed (input : BeforeAgentStartInput)
    (ctx : HookContext) :
    ∀ (hs : List TypedHookEntry) (acc : BeforeAgentStartResult),
      (runHandlersFrom true input ctx acc hs).propagated = none ∧
      (runHandlersFrom true input ctx acc hs).executed = hs.map (fun h => h.pluginId) ∧
      (runHandlersFrom true input ctx acc hs).result =
        some ((okResults input ctx hs).foldl mergeBeforeAgentStart acc) := by
  intro hs
  induction hs with
  | nil => intro acc; exact ⟨rfl, rfl, rfl⟩
  | cons h t ih =>
    intro acc
    cases hh : h.handler input ctx with
    | ok r =>
      have hr := ih (mergeBeforeAgentStart acc r)
      simp [runHandlersFrom, hh, okResults, Except.toOption, hr.1, hr.2.1]
      have := hr.2.2
      simpa [okResults] using this
    | error e =>
      have hr := ih acc
      simp [runHandlersFrom, hh, okResults, Except.toOption, hr.1, hr.2.1]
      have := hr.2.2
      simpa [okResults] using this

theorem runHandlersFrom_stops_at_error (input : BeforeAgentStartInput) (ctx : HookContext) :
    ∀ (good : List TypedHookEntry) (rs : List BeforeAgentStartResult)
      (bad : TypedHookEntry) (rest : List TypedHookEntry) (e : String)
      (acc : BeforeAgentStartResult),
      good.map (fun h => h.handler input ctx) = rs.map Except.ok →
      bad.handler input ctx = Except.error e →
      runHandlersFrom false input ctx acc (good ++ bad :: rest) =
        { result := none, executed := good.map (fun h => h.pluginId) ++ [bad.pluginId]
          failed := [bad.pluginId], propagated := some e } := by
  intro good
  induction good with
  | nil =>
    intro rs bad rest e acc _ hbad
    simp [runHandlersFrom, hbad]
  | cons g gs ih =>
    intro rs bad rest e acc hmap hbad
    cases rs with
    | nil => simp at hmap
    | cons r rt =>
      simp only [List.map_cons, List.cons.injEq] at hmap
      obtain ⟨hg, hgs⟩ := hmap
      simp [runHandlersFrom, hg, ih rt bad rest e (mergeBeforeAgentStart acc r) hgs hbad]

theorem getLast?_cons_eq (a : String) (l : List String) :
    (a :: l).getLast? =
      match l.getLast? with
      | some v => some v
      | none => some a := by
  cases l with
  | nil => rfl
  | cons x xs =>
    rw [List.getLast?_cons_cons]
    cases hx : (x :: xs).getLast? with
    | none =>
      have hne : (x :: xs) ≠ [] := by simp
      have hs := List.getLast?_isSome.mpr hne
      rw [hx] at hs
      simp at hs
    | some v => rfl

theorem foldl_merge_systemPrompt :
    ∀ (rs : List BeforeAgentStartResult) (acc : BeforeAgentStartResult),
      (rs.foldl mergeBeforeAgentStart acc).systemPrompt =
        match (rs.filterMap (fun r => r.systemPrompt)).getLast? with
        | some v => some v
        | none => acc.systemPrompt := by
  intro rs
  induction rs with
  | nil => intro acc; rfl
  | cons r rest ih =>
    intro acc
    cases hr : r.systemPrompt with
    | none =>
      have hm : (mergeBeforeAgentStart acc r).systemPrompt = acc.systemPrompt := by
        simp [mergeBeforeAgentStart, hr]
      simp only [List.foldl_cons, List.filterMap_cons, hr, ih (mergeBeforeAgentStart acc r), hm]
    | some v =>
      have hm : (mergeBeforeAgentStart acc r).systemPrompt = some v := by
        simp [mergeBeforeAgentStart, hr]
      simp only [List.foldl_cons, List.filterMap_cons, hr,
        ih (mergeBeforeAgentStart acc r), hm, getLast?_cons_eq]
      cases hL : (rest.filterMap (fun x => x.systemPrompt)).getLast? <;> rfl

theorem foldl_merge_prepend_some :
    ∀ (rs : List BeforeAgentStartResult) (acc : BeforeAgentStartResult) (a : String),
      acc.prependContext = some a →
      (rs.foldl mergeBeforeAgentStart acc).prependContext =
        some ((rs.filterMap (fun r => r.prependContext)).foldl (fun x y => x ++ y) a) := by
  intro rs
  induction rs with
  | nil => intro acc a h; simpa using h
  | cons r rest ih =>
    intro acc a h
    cases hr : r.prependContext with
    | none =>
      have hm : (mergeBeforeAgentStart acc r).prependContext = some a := by
        simp [mergeBeforeAgentStart, h, hr]
      simp only [List.foldl_cons, List.filterMap_cons, hr,
        ih (mergeBeforeAgentStart acc r) a hm]
    | some b =>
      have hm : (mergeBeforeAgentStart acc r).prependContext = some (a ++ b) := by
        simp [mergeBeforeAgentStart, h, hr]
      simp only [List.foldl_cons, List.filterMap_cons, hr,
        ih (mergeBeforeAgentStart acc r) (a ++ b) hm]

theorem foldl_merge_prepend_none :
    ∀ (rs : List BeforeAgentStartResult) (acc : BeforeAgentStartResult),
      acc.prependContext = none →
      (rs.foldl mergeBeforeAgentStart acc).prependContext =
        joinContribs (rs.filterMap (fun r => r.prependContext)) := by
  intro rs
  induction rs with
  | nil => intro acc h; simpa [joinContribs] using h
  | cons r rest ih =>
    intro acc h
    cases hr : r.prependContext with
    | none =>
      have hm : (mergeBeforeAgentStart acc r).prependContext = none := by
        simp [mergeBeforeAgentStart, h, hr]
      simp only [List.foldl_cons, List.filterMap_cons, hr,
        ih (mergeBeforeAgentStart acc r) hm]
    | some b =>
      have hm : (mergeBeforeAgentStart acc r).prependContext = some b := by
        simp [mergeBeforeAgentStart, h, hr]
      simp only [List.foldl_cons, List.filterMap_cons, hr, joinContribs,
        foldl_merge_prepend_some rest (mergeBeforeAgentStart acc r) b hm]

/-! ## C3 -/

/-- C3: for every sequence of plugins registering handlers for
before_agent_start whose handlers all settle, the merged result's
systemPrompt equals the last non-undefined contribution in registration
order, independent of how many handlers there are; in particular plugin A
returning Prompt A followed by plugin B returning Prompt B yields
Prompt B. -/
theorem c3_system_prompt_last_write_wins (catchErrors : Bool)
    (entries : List TypedHookEntry) (input : BeforeAgentStartInput) (ctx : HookContext)
    (rs : List BeforeAgentStartResult)
    (hmap : (entries.filter (fun h => h.hookName == "before_agent_start")).map
        (fun h => h.handler input ctx) = rs.map Except.ok) :
    (∃ m, (runBeforeAgentStart entries catchErrors input ctx).result = some m ∧
      m.systemPrompt = (rs.filterMap (fun r => r.systemPrompt)).getLast?) ∧
    (runBeforeAgentStart [pluginAEntry, pluginBEntry] catchErrors
        { prompt := "Hello" } { agentId := "main" }).result =
      some { systemPrompt := some "Prompt B", prependContext := none } := by
  constructor
  · rw [runBeforeAgentStart,
      runHandlersFrom_all_ok catchErrors input ctx _ rs emptyBeforeAgentStartResult hmap]
    refine ⟨_, rfl, ?_⟩
    rw [foldl_merge_systemPrompt]
    cases hL : (rs.filterMap (fun r => r.systemPrompt)).getLast? <;>
      simp [emptyBeforeAgentStartResult]
  · rw [runBeforeAgentStart,
      runHandlersFrom_all_ok catchErrors { prompt := "Hello" } { agentId := "main" }
        ([pluginAEntry, pluginBEntry].filter (fun h => h.hookName == "before_agent_start"))
        [{ systemPrompt := some "Prompt A", prependContext := none },
         { systemPrompt := some "Prompt B", prependContext := none }]
        emptyBeforeAgentStartResult rfl]
    rfl

/-- C3 witness: the two-plugin scenario from the test, both handlers
settling, run with catchErrors on. -/
theorem c3_system_prompt_last_write_wins_witness :
    ∃ m, (runBeforeAgentStart [pluginAEntry, pluginBEntry] true
        { prompt := "Hello" } { agentId := "main" }).result = some m ∧
      m.systemPrompt =
        ([{ systemPrompt := some "Prompt A", prependContext := none },
          { systemPrompt := some "Prompt B", prependContext := none }].filterMap
            (fun (r : BeforeAgentStartResult) => r.systemPrompt)).getLast? :=
  (c3_system_prompt_last_write_wins true [pluginAEntry, pluginBEntry]
    { prompt := "Hello" } { agentId := "main" }
    [{ systemPrompt := some "Prompt A", prependContext := none },
     { systemPrompt := some "Prompt B", prependContext := none }] rfl).1

/-! ## C4 -/

/-- C4: for the additive prependContext field, when the handlers all
settle, the merged result carries the joined contributions: none when no
handler supplies the field, the single contribution unchanged when exactly
one does, and the ordered concatenation (later contributions appended) when
several do. -/
theorem c4_prepend_context_additive (catchErrors : Bool)
    (entries : List TypedHookEntry) (input : BeforeAgentStartInput) (ctx : HookContext)
    (rs : List BeforeAgentStartResult)
    (hmap : (entries.filter (fun h => h.hookName == "before_agent_start")).map
        (fun h => h.handler input ctx) = rs.map Except.ok) :
    (∃ m, (runBeforeAgentStart entries catchErrors input ctx).result = some m ∧
      m.prependContext = joinContribs (rs.filterMap (fun r => r.prependContext))) ∧
    joinContribs [] = none ∧
    (∀ c, joinContribs [c] = some c) ∧
    (∀ a b, joinContribs [a, b] = some (a ++ b)) := by
  refine ⟨?_, rfl, fun c => rfl, fun a b => rfl⟩
  rw [runBeforeAgentStart,
    runHandlersFrom_all_ok catchErrors input ctx _ rs emptyBeforeAgentStartResult hmap]
  exact ⟨_, rfl, foldl_merge_prepend_none rs emptyBeforeAgentStartResult rfl⟩

/-- C4 witness: two additive contributors; the merged prependContext is
their ordered concatenation, and a single contribution would be retained
unchanged. -/
theorem c4_prepend_context_additive_witness :
    ∃ m, (runBeforeAgentStart [pluginCtxEntry1, pluginCtxEntry2] true
        { prompt := "Hello" } { agentId := "main" }).result = some m ∧
      m.prependContext =
        joinContribs
          ([{ systemPrompt := none, prependContext := some "Alpha" },
            { systemPrompt := none, prependContext := some "Beta" }].filterMap
              (fun (r : BeforeAgentStartResult) => r.prependContext)) :=
  (c4_prepend_context_additive true [pluginCtxEntry1, pluginCtxEntry2]
    { prompt := "Hello" } { agentId := "main" }
    [{ systemPrompt := none, prependContext := some "Alpha" },
     { systemPrompt := none, prependContext := some "Beta" }] rfl).1

/-! ## C6 -/

/-- C6: with catchErrors on, a throwing handler contributes no fields while
every selected handler still executes and the run settles normally (the
merged result folds exactly the successful contributions); with catchErrors
off, the first throwing handler's error propagates to the caller, no merged
result is produced, and no later handler executes. -/
theorem c6_catch_errors_semantics :
    (∀ (entries : List TypedHookEntry) (input : BeforeAgentStartInput) (ctx : HookContext),
      (runBeforeAgentStart entries true input ctx).propagated = none ∧
      (runBeforeAgentStart entries true input ctx).executed =
        (entries.filter (fun h => h.hookName == "before_agent_start")).map
          (fun h => h.pluginId) ∧
      (runBeforeAgentStart entries true input ctx).result =
        some ((okResults input ctx
            (entries.filter (fun h => h.hookName == "before_agent_start"))).foldl
          mergeBeforeAgentStart emptyBeforeAgentStartResult)) ∧
    (∀ (entries : List TypedHookEntry) (input : BeforeAgentStartInput) (ctx : HookContext)
      (good : List TypedHookEntry) (rs : List BeforeAgentStartResult)
      (bad : TypedHookEntry) (rest : List TypedHookEntry) (e : String),
      entries.filter (fun h => h.hookName == "before_agent_start") = good ++ bad :: rest →
      good.map (fun h => h.handler input ctx) = rs.map Except.ok →
      bad.handler input ctx = Except.error e →
      (runBeforeAgentStart entries false input ctx).propagated = some e ∧
      (runBeforeAgentStart entries false input ctx).result = none ∧
      (runBeforeAgentStart entries false input ctx).executed =
        good.map (fun h => h.pluginId) ++ [bad.pluginId]) := by
  constructor
  · intro entries input ctx
    exact runHandlersFrom_catch_all_executed input ctx
      (entries.filter (fun h => h.hookName == "before_agent_start"))
      emptyBeforeAgentStartResult
  · intro entries input ctx good rs bad rest e hfilter hmap hbad
    rw [runBeforeAgentStart, hfilter,
      runHandlersFrom_stops_at_error input ctx good rs bad rest e
        emptyBeforeAgentStartResult hmap hbad]
    exact ⟨rfl, rfl, rfl⟩

/-- C6 witness: a failing handler sandwiched between two healthy ones, run
with catchErrors off — its error propagates and the trailing handler never
executes. -/
theorem c6_catch_errors_semantics_witness :
    (runBeforeAgentStart [pluginAEntry, failingEntry, pluginBEntry] false
        { prompt := "Hello" } { agentId := "main" }).propagated = some "handler crashed" ∧
    (runBeforeAgentStart [pluginAEntry, failingEntry, pluginBEntry] false
        { prompt := "Hello" } { agentId := "main" }).result = none ∧
    (runBeforeAgentStart [pluginAEntry, failingEntry, pluginBEntry] false
        { prompt := "Hello" } { agentId := "main" }).executed =
      ["plugin-a", "failing-plugin"] :=
  c6_catch_errors_semantics.2 [pluginAEntry, failingEntry, pluginBEntry]
    { prompt := "Hello" } { agentId := "main" }
    [pluginAEntry] [{ systemPrompt := some "Prompt A", prependContext := none }]
    failingEntry [pluginBEntry] "handler crashed" rfl rfl rfl

/-! ## Loader lemmas -/

theorem loadOnePlugin_fst_id {σ : Type} (cfg : PluginsConfig) (lg : HostLogger σ)
    (ids : List String) (p : DiscoveredPlugin σ) :
    (loadOnePlugin cfg lg ids p).1.id = p.id := by
  unfold loadOnePlugin
  repeat' split
  all_goals rfl

theorem loadOnePlugin_loaded_or_nil {σ : Type} (cfg : PluginsConfig) (lg : HostLogger σ)
    (ids : List String) (p : DiscoveredPlugin σ) :
    (loadOnePlugin cfg lg ids p).1.status = PluginStatus.loaded ∨
      (loadOnePlugin cfg lg ids p).2 = [] := by
  unfold loadOnePlugin
  repeat' split
  all_goals simp

theorem processPlugins_map_id {σ : Type} (cfg : PluginsConfig) (lg : HostLogger σ) :
    ∀ (ps : List (DiscoveredPlugin σ)) (ids : List String),
      (processPlugins cfg lg ids ps).map (fun r => r.1.id) = ps.map (fun p => p.id) := by
  intro ps
  induction ps with
  | nil => intro ids; rfl
  | cons p rest ih =>
    intro ids
    simp [processPlugins, loadOnePlugin_fst_id, ih]

theorem processPlugins_length {σ : Type} (cfg : PluginsConfig) (lg : HostLogger σ)
    (ps : List (DiscoveredPlugin σ)) (ids : List String) :
    (processPlugins cfg lg ids ps).length = ps.length := by
  have h := congrArg List.length (processPlugins_map_id cfg lg ps ids)
  simpa using h

theorem processPlugins_append {σ : Type} (cfg : PluginsConfig) (lg : HostLogger σ) :
    ∀ (a b : List (DiscoveredPlugin σ)) (ids : List String),
      processPlugins cfg lg ids (a ++ b) =
        processPlugins cfg lg ids a ++ processPlugins cfg lg (loadedAfter cfg lg ids a) b := by
  intro a
  induction a with
  | nil => intro b ids; rfl
  | cons p rest ih =>
    intro b ids
    simp [processPlugins, loadedAfter, ih]

theorem loadedAfter_mem {σ : Type} (cfg : PluginsConfig) (lg : HostLogger σ) :
    ∀ (ps : List (DiscoveredPlugin σ)) (ids : List String) (x : String),
      x ∈ loadedAfter cfg lg ids ps → x ∈ ids ∨ ∃ q ∈ ps, x = q.id := by
  intro ps
  induction ps with
  | nil =>
    intro ids x hx
    exact Or.inl hx
  | cons p rest ih =>
    intro ids x hx
    rw [loadedAfter] at hx
    rcases ih _ x hx with hin | ⟨q, hq, hid⟩
    · by_cases hl : (loadOnePlugin cfg lg ids p).1.status = PluginStatus.loaded
      · rw [if_pos hl] at hin
        rcases List.mem_append.mp hin with h1 | h2
        · exact Or.inl h1
        · refine Or.inr ⟨p, List.mem_cons_self p rest, ?_⟩
          simpa using h2
      · rw [if_neg hl] at hin
        exact Or.inl hin
    · exact Or.inr ⟨q, List.mem_cons_of_mem p hq, hid⟩

theorem contains_eq_false_of_not_mem {l : List String} {x : String} (h : x ∉ l) :
    l.contains x = false := by
  simpa using h

theorem loadOnePlugin_clean {σ : Type} (cfg : PluginsConfig) (lg : HostLogger σ)
    (ids : List String) (q : DiscoveredPlugin σ)
    (h : CleanLoad cfg lg q) (hnot : q.id ∉ ids) :
    (loadOnePlugin cfg lg ids q).1 = ⟨q.id, PluginStatus.loaded, none⟩ := by
  obtain ⟨ha, he, man, v, staged, hman, hval, himp, hreg⟩ := h
  simp [loadOnePlugin, ha, he, hnot, hman, hval, himp, hreg]

theorem loadOnePlugin_failure {σ : Type} (cfg : PluginsConfig) (lg : HostLogger σ)
    (ids : List String) (p : DiscoveredPlugin σ)
    (hallow : allowPermits cfg.allow p.id = true)
    (hen : pluginEnabled cfg p.id = true)
    (hfail : LoaderTimeFailure cfg lg p) :
    (loadOnePlugin cfg lg ids p).1.status = PluginStatus.error ∧
      (loadOnePlugin cfg lg ids p).2 = [] := by
  by_cases hdup : p.id ∈ ids
  · simp [loadOnePlugin, hallow, hen, hdup]
  · rcases hfail with ⟨e, hman⟩ | ⟨man, ve, hman, hval⟩ |
      ⟨man, v, e, hman, hval, himp⟩ | ⟨man, v, msg, hman, hval, himp, hreg⟩
    · simp [loadOnePlugin, hallow, hen, hdup, hman]
    · simp [loadOnePlugin, hallow, hen, hdup, hman, hval]
    · simp [loadOnePlugin, hallow, hen, hdup, hman, hval, himp]
    · simp [loadOnePlugin, hallow, hen, hdup, hman, hval, himp, hreg]

theorem loadOnePlugin_register_error {σ : Type} (cfg : PluginsConfig) (lg : HostLogger σ)
    (ids : List String) (p : DiscoveredPlugin σ)
    (man : PluginManifest) (v : List (String × ConfigValue)) (msg : String)
    (hallow : allowPermits cfg.allow p.id = true)
    (hen : pluginEnabled cfg p.id = true)
    (hnot : p.id ∉ ids)
    (hman : p.manifest = Except.ok man)
    (hval : validateConfig man.configSchema (rawConfigFor cfg p.id) = Except.ok v)
    (himp : p.importResult = Except.ok ())
    (hreg : p.register (buildCapabilitySurface p.id v lg) = Except.error msg) :
    loadOnePlugin cfg lg ids p = (⟨p.id, PluginStatus.error, some msg⟩, []) := by
  simp [loadOnePlugin, hallow, hen, hnot, hman, hval, himp, hreg]

theorem loadOnePlugin_validation_error {σ : Type} (cfg : PluginsConfig) (lg : HostLogger σ)
    (ids : List String) (p : DiscoveredPlugin σ)
    (man : PluginManifest) (ve : ValidationError)
    (hallow : allowPermits cfg.allow p.id = true)
    (hen : pluginEnabled cfg p.id = true)
    (hnot : p.id ∉ ids)
    (hman : p.manifest = Except.ok man)
    (hval : validateConfig man.configSchema (rawConfigFor cfg p.id) = Except.error ve) :
    loadOnePlugin cfg lg ids p = (⟨p.id, PluginStatus.error, some ve.detail⟩, []) := by
  simp [loadOnePlugin, hallow, hen, hnot, hman, hval]

theorem loadOnePlugin_not_allowed {σ : Type} (cfg : PluginsConfig) (lg : HostLogger σ)
    (ids : List String) (p : DiscoveredPlugin σ)
    (h : allowPermits cfg.allow p.id = false) :
    loadOnePlugin cfg lg ids p = (⟨p.id, PluginStatus.skipped, none⟩, []) := by
  simp [loadOnePlugin, h]

theorem loadOnePlugin_disabled {σ : Type} (cfg : PluginsConfig) (lg : HostLogger σ)
    (ids : List String) (p : DiscoveredPlugin σ)
    (h : pluginEnabled cfg p.id = false) :
    loadOnePlugin cfg lg ids p = (⟨p.id, PluginStatus.skipped, none⟩, []) := by
  cases ha : allowPermits cfg.allow p.id with
  | false => simp [loadOnePlugin, ha]
  | true => simp [loadOnePlugin, ha, h]

theorem loadOnePlugin_not_skipped {σ : Type} (cfg : PluginsConfig) (lg : HostLogger σ)
    (ids : List String) (p : DiscoveredPlugin σ)
    (hallow : allowPermits cfg.allow p.id = true)
    (hen : pluginEnabled cfg p.id = true) :
    (loadOnePlugin cfg lg ids p).1.status ≠ PluginStatus.skipped := by
  unfold loadOnePlugin
  rw [if_neg (by simp [hallow]), if_neg (by simp [hen])]
  repeat' split
  all_goals simp

theorem allRegs_owner {σ : Type} (cfg : PluginsConfig) (lg : HostLogger σ) :
    ∀ (ps : List (DiscoveredPlugin σ)) (ids : List String) (r : Registration),
      r ∈ ((processPlugins cfg lg ids ps).map (fun x => x.2)).flatten →
      ∃ q ∈ ps, r.pluginId = q.id := by
  intro ps
  induction ps with
  | nil =>
    intro ids r hr
    simp [processPlugins] at hr
  | cons p rest ih =>
    intro ids r hr
    rw [processPlugins] at hr
    simp only [List.map_cons, List.flatten_cons, List.mem_append] at hr
    rcases hr with h1 | h2
    · obtain ⟨s, _, hs⟩ := List.mem_map.mp h1
      refine ⟨p, List.mem_cons_self p rest, ?_⟩
      rw [← hs]
    · obtain ⟨q, hq, hid⟩ := ih _ r h2
      exact ⟨q, List.mem_cons_of_mem p hq, hid⟩

theorem processPlugins_clean_loaded {σ : Type} (cfg : PluginsConfig) (lg : HostLogger σ) :
    ∀ (ps : List (DiscoveredPlugin σ)) (ids : List String) (q : DiscoveredPlugin σ),
      q ∈ ps → CleanLoad cfg lg q → q.id ∉ ids → (ps.map (fun p => p.id)).Nodup →
      ∀ o ∈ (processPlugins cfg lg ids ps).map (fun r => r.1), o.id = q.id →
        o = ⟨q.id, PluginStatus.loaded, none⟩ := by
  intro ps
  induction ps with
  | nil =>
    intro ids q hq
    simp at hq
  | cons a rest ih =>
    intro ids q hq hclean hnotin hnodup o ho hoid
    rw [processPlugins] at ho
    simp only [List.map_cons, List.mem_cons] at ho
    simp only [List.map_cons, List.nodup_cons] at hnodup
    obtain ⟨hheadnot, hnodup'⟩ := hnodup
    rcases List.mem_cons.mp hq with rfl | hq'
    · rcases ho with ho1 | ho2
      · rw [ho1, loadOnePlugin_clean cfg lg ids q hclean hnotin]
      · exfalso
        obtain ⟨rr, hrr, hro⟩ := List.mem_map.mp ho2
        have hids : o.id ∈ rest.map (fun p => p.id) := by
          rw [← processPlugins_map_id cfg lg rest
            (if (loadOnePlugin cfg lg ids q).1.status = PluginStatus.loaded
              then ids ++ [q.id] else ids)]
          exact List.mem_map.mpr ⟨rr, hrr, by rw [hro]⟩
        rw [hoid] at hids
        exact hheadnot hids
    · rcases ho with ho1 | ho2
      · exfalso
        have hne : a.id ≠ q.id := by
          intro heq
          exact hheadnot (heq ▸ List.mem_map.mpr ⟨q, hq', rfl⟩)
        rw [ho1] at hoid
        rw [loadOnePlugin_fst_id] at hoid
        exact hne hoid
      · refine ih _ q hq' hclean ?_ hnodup' o ho2 hoid
        have hne : q.id ≠ a.id := by
          intro heq
          exact hheadnot (heq ▸ List.mem_map.mpr ⟨q, hq', rfl⟩)
        by_cases hl : (loadOnePlugin cfg lg ids a).1.status = PluginStatus.loaded
        · rw [if_pos hl]
          intro hmem
          rcases List.mem_append.mp hmem with h1 | h2
          · exact hnotin h1
          · exact hne (by simpa using h2)
        · rw [if_neg hl]
          exact hnotin

theorem load_plugins_middle {σ : Type} (cfg : PluginsConfig) (lg : HostLogger σ)
    (l1 l2 : List (DiscoveredPlugin σ)) (p : DiscoveredPlugin σ) :
    (loadOpenClawPlugins cfg lg (l1 ++ p :: l2)).plugins[l1.length]? =
      some (loadOnePlugin cfg lg (loadedAfter cfg lg [] l1) p).1 := by
  show ((processPlugins cfg lg [] (l1 ++ p :: l2)).map (fun r => r.1))[l1.length]? = _
  rw [processPlugins_append, List.map_append]
  have hlen : ((processPlugins cfg lg [] l1).map (fun r => r.1)).length = l1.length := by
    rw [List.length_map, processPlugins_length]
  rw [List.getElem?_append_right (by rw [hlen])]
  rw [hlen, Nat.sub_self, processPlugins]
  simp

theorem allRegs_skip {σ : Type} (cfg : PluginsConfig) (lg : HostLogger σ)
    (l1 l2 : List (DiscoveredPlugin σ)) (p : DiscoveredPlugin σ)
    (hstat : (loadOnePlugin cfg lg (loadedAfter cfg lg [] l1) p).1.status ≠
      PluginStatus.loaded) :
    allRegs cfg lg (l1 ++ p :: l2) = allRegs cfg lg (l1 ++ l2) := by
  have hnil := (loadOnePlugin_loaded_or_nil cfg lg (loadedAfter cfg lg [] l1) p).resolve_left hstat
  unfold allRegs
  rw [processPlugins_append, processPlugins_append]
  rw [processPlugins]
  simp [hstat, hnil]

theorem allRegs_no_middle {σ : Type} (cfg : PluginsConfig) (lg : HostLogger σ)
    (l1 l2 : List (DiscoveredPlugin σ)) (p : DiscoveredPlugin σ)
    (hstat : (loadOnePlugin cfg lg (loadedAfter cfg lg [] l1) p).1.status ≠
      PluginStatus.loaded)
    (hothers : ∀ q, (q ∈ l1 ∨ q ∈ l2) → q.id ≠ p.id) :
    ∀ r ∈ allRegs cfg lg (l1 ++ p :: l2), r.pluginId ≠ p.id := by
  intro r hr
  rw [allRegs_skip cfg lg l1 l2 p hstat] at hr
  obtain ⟨q, hq, hid⟩ := allRegs_owner cfg lg (l1 ++ l2) [] r hr
  rw [hid]
  exact hothers q (List.mem_append.mp hq)

theorem load_plugins_split_skip {σ : Type} (cfg : PluginsConfig) (lg : HostLogger σ)
    (l1 l2 : List (DiscoveredPlugin σ)) (p : DiscoveredPlugin σ)
    (hstat : (loadOnePlugin cfg lg (loadedAfter cfg lg [] l1) p).1.status ≠
      PluginStatus.loaded) :
    (loadOpenClawPlugins cfg lg (l1 ++ p :: l2)).plugins =
      (processPlugins cfg lg [] l1).map (fun r => r.1) ++
        (loadOnePlugin cfg lg (loadedAfter cfg lg [] l1) p).1 ::
          (processPlugins cfg lg (loadedAfter cfg lg [] l1) l2).map (fun r => r.1) := by
  show ((processPlugins cfg lg [] (l1 ++ p :: l2)).map (fun r => r.1)) = _
  rw [processPlugins_append, List.map_append, processPlugins]
  simp [hstat]

theorem load_plugins_base {σ : Type} (cfg : PluginsConfig) (lg : HostLogger σ)
    (l1 l2 : List (DiscoveredPlugin σ)) :
    (loadOpenClawPlugins cfg lg (l1 ++ l2)).plugins =
      (processPlugins cfg lg [] l1).map (fun r => r.1) ++
        (processPlugins cfg lg (loadedAfter cfg lg [] l1) l2).map (fun r => r.1) := by
  show ((processPlugins cfg lg [] (l1 ++ l2)).map (fun r => r.1)) = _
  rw [processPlugins_append, List.map_append]

theorem nodup_middle_ne {A B : List String} {x : String} (h : (A ++ x :: B).Nodup) :
    (∀ a ∈ A, a ≠ x) ∧ (∀ b ∈ B, b ≠ x) := by
  obtain ⟨hA, hC, hdisj⟩ := List.nodup_append.mp h
  constructor
  · intro a ha heq
    exact hdisj ha (heq ▸ List.mem_cons_self x B)
  · intro b hb heq
    exact (List.nodup_cons.mp hC).1 (heq ▸ hb)

theorem validateConfig_unknown (schema : ConfigSchema)
    (fields : List (String × ConfigValue))
    (h : ∃ f ∈ fields, schema.properties.contains f.1 = false) :
    ∃ f ∈ fields, schema.properties.contains f.1 = false ∧
      validateConfig schema (ConfigValue.obj fields) =
        Except.error (ValidationError.unknownProperty f.1) := by
  cases hf : fields.find? (fun f => !(schema.properties.contains f.1)) with
  | none =>
    exfalso
    obtain ⟨f, hfm, hfc⟩ := h
    have hnone := List.find?_eq_none.mp hf f hfm
    simp at hnone
    have htrue : schema.properties.contains f.1 = true := by simpa using hnone
    rw [hfc] at htrue
    exact Bool.noConfusion htrue
  | some f =>
    refine ⟨f, List.mem_of_find?_eq_some hf, ?_, ?_⟩
    · have hp := List.find?_some hf
      simpa using hp
    · simp only [validateConfig]
      rw [hf]

/-! ## C2 -/

/-- C2: a plugin whose register entrypoint throws (synchronously or by
rejecting) ends with outcome error carrying the thrown message as detail,
contributes zero entries to every registry collection (its staged
registrations are discarded), and sibling plugins that pass every loader
step still reach status loaded. -/
theorem c2_register_throw_all_or_nothing {σ : Type} (cfg : PluginsConfig)
    (lg : HostLogger σ) (l1 l2 : List (DiscoveredPlugin σ)) (p : DiscoveredPlugin σ)
    (man : PluginManifest) (v : List (String × ConfigValue)) (msg : String)
    (hnodup : ((l1 ++ p :: l2).map (fun q => q.id)).Nodup)
    (hallow : allowPermits cfg.allow p.id = true)
    (hen : pluginEnabled cfg p.id = true)
    (hman : p.manifest = Except.ok man)
    (hval : validateConfig man.configSchema (rawConfigFor cfg p.id) = Except.ok v)
    (himp : p.importResult = Except.ok ())
    (hreg : p.register (buildCapabilitySurface p.id v lg) = Except.error msg) :
    (loadOpenClawPlugins cfg lg (l1 ++ p :: l2)).plugins[l1.length]? =
      some ⟨p.id, PluginStatus.error, some msg⟩ ∧
    (∀ r ∈ (loadOpenClawPlugins cfg lg (l1 ++ p :: l2)).hooks, r.pluginId ≠ p.id) ∧
    (∀ r ∈ (loadOpenClawPlugins cfg lg (l1 ++ p :: l2)).typedHooks, r.pluginId ≠ p.id) ∧
    (∀ r ∈ (loadOpenClawPlugins cfg lg (l1 ++ p :: l2)).tools, r.pluginId ≠ p.id) ∧
    (∀ r ∈ (loadOpenClawPlugins cfg lg (l1 ++ p :: l2)).commands, r.pluginId ≠ p.id) ∧
    (∀ r ∈ (loadOpenClawPlugins cfg lg (l1 ++ p :: l2)).channelPlugins, r.pluginId ≠ p.id) ∧
    (∀ r ∈ (loadOpenClawPlugins cfg lg (l1 ++ p :: l2)).skillPlugins, r.pluginId ≠ p.id) ∧
    (∀ r ∈ (loadOpenClawPlugins cfg lg (l1 ++ p :: l2)).memoryPlugins, r.pluginId ≠ p.id) ∧
    (∀ q, (q ∈ l1 ∨ q ∈ l2) → CleanLoad cfg lg q →
      ∀ o ∈ (loadOpenClawPlugins cfg lg (l1 ++ p :: l2)).plugins, o.id = q.id →
        o = ⟨q.id, PluginStatus.loaded, none⟩) := by
  have hmapnodup := hnodup
  rw [List.map_append, List.map_cons] at hmapnodup
  obtain ⟨hno1, hno2⟩ := nodup_middle_ne hmapnodup
  have hno1' : ∀ q ∈ l1, q.id ≠ p.id := by
    intro q hq
    exact hno1 q.id (List.mem_map.mpr ⟨q, hq, rfl⟩)
  have hno2' : ∀ q ∈ l2, q.id ≠ p.id := by
    intro q hq
    exact hno2 q.id (List.mem_map.mpr ⟨q, hq, rfl⟩)
  have hnotmid : p.id ∉ loadedAfter cfg lg [] l1 := by
    intro hmem
    rcases loadedAfter_mem cfg lg l1 [] p.id hmem with h0 | ⟨q, hq, hid⟩
    · simp at h0
    · exact hno1' q hq hid.symm
  have hmid := loadOnePlugin_register_error cfg lg (loadedAfter cfg lg [] l1) p man v msg
    hallow hen hnotmid hman hval himp hreg
  have hstat : (loadOnePlugin cfg lg (loadedAfter cfg lg [] l1) p).1.status ≠
      PluginStatus.loaded := by
    rw [hmid]
    simp
  have hothers : ∀ q, (q ∈ l1 ∨ q ∈ l2) → q.id ≠ p.id := by
    intro q hq
    rcases hq with h1 | h2
    · exact hno1' q h1
    · exact hno2' q h2
  have hnomid := allRegs_no_middle cfg lg l1 l2 p hstat hothers
  refine ⟨?_, ?_, ?_, ?_, ?_, ?_, ?_, ?_, ?_⟩
  · rw [load_plugins_middle, hmid]
  · intro r hr
    exact hnomid r (List.mem_of_mem_filter hr)
  · intro r hr
    exact hnomid r (List.mem_of_mem_filter hr)
  · intro r hr
    exact hnomid r (List.mem_of_mem_filter hr)
  · intro r hr
    exact hnomid r (List.mem_of_mem_filter hr)
  · intro r hr
    exact hnomid r (List.mem_of_mem_filter hr)
  · intro r hr
    exact hnomid r (List.mem_of_mem_filter hr)
  · intro r hr
    exact hnomid r (List.mem_of_mem_filter hr)
  · intro q hq hclean o ho hoid
    refine processPlugins_clean_loaded cfg lg (l1 ++ p :: l2) [] q ?_ hclean (by simp)
      hnodup o ho hoid
    rcases hq with h1 | h2
    · exact List.mem_append.mpr (Or.inl h1)
    · exact List.mem_append.mpr (Or.inr (List.mem_cons_of_mem p h2))

/-- C2 witness: a plugin whose register throws, loaded between two healthy
plugins; its outcome carries the thrown message. -/
theorem c2_register_throw_all_or_nothing_witness :
    (loadOpenClawPlugins cfgAllowAll unitLogger
        [goodPlugin "alpha", badRegisterPlugin "beta", goodPlugin "gamma"]).plugins[1]? =
      some ⟨"beta", PluginStatus.error, some "register blew up"⟩ :=
  (c2_register_throw_all_or_nothing cfgAllowAll unitLogger
    [goodPlugin "alpha"] [goodPlugin "gamma"] (badRegisterPlugin "beta")
    { id := "beta", configSchema := { properties := [] } } [] "register blew up"
    (by decide) rfl rfl rfl rfl rfl rfl).1

/-! ## C5 -/

/-- C5: every loader-time failure (manifest parse failure, schema
validation failure, import failure, register throw) of an allow-listed,
enabled plugin is recovered locally into that plugin's outcome record with
status error — the loader still yields one outcome per discovered plugin —
and the failed plugin neither changes any sibling's outcome nor contributes
to any registry collection: the rest of the load is exactly the load
without it. -/
theorem c5_loader_failures_isolated {σ : Type} (cfg : PluginsConfig)
    (lg : HostLogger σ) (l1 l2 : List (DiscoveredPlugin σ)) (p : DiscoveredPlugin σ)
    (hallow : allowPermits cfg.allow p.id = true)
    (hen : pluginEnabled cfg p.id = true)
    (hfail : LoaderTimeFailure cfg lg p) :
    (loadOpenClawPlugins cfg lg (l1 ++ p :: l2)).plugins.length =
      l1.length + 1 + l2.length ∧
    (∃ o, (loadOpenClawPlugins cfg lg (l1 ++ p :: l2)).plugins[l1.length]? = some o ∧
      o.id = p.id ∧ o.status = PluginStatus.error) ∧
    (loadOpenClawPlugins cfg lg (l1 ++ p :: l2)).plugins.take l1.length =
      (loadOpenClawPlugins cfg lg (l1 ++ l2)).plugins.take l1.length ∧
    (loadOpenClawPlugins cfg lg (l1 ++ p :: l2)).plugins.drop (l1.length + 1) =
      (loadOpenClawPlugins cfg lg (l1 ++ l2)).plugins.drop l1.length ∧
    (loadOpenClawPlugins cfg lg (l1 ++ p :: l2)).hooks =
      (loadOpenClawPlugins cfg lg (l1 ++ l2)).hooks ∧
    (loadOpenClawPlugins cfg lg (l1 ++ p :: l2)).typedHooks =
      (loadOpenClawPlugins cfg lg (l1 ++ l2)).typedHooks ∧
    (loadOpenClawPlugins cfg lg (l1 ++ p :: l2)).tools =
      (loadOpenClawPlugins cfg lg (l1 ++ l2)).tools ∧
    (loadOpenClawPlugins cfg lg (l1 ++ p :: l2)).commands =
      (loadOpenClawPlugins cfg lg (l1 ++ l2)).commands ∧
    (loadOpenClawPlugins cfg lg (l1 ++ p :: l2)).channelPlugins =
      (loadOpenClawPlugins cfg lg (l1 ++ l2)).channelPlugins ∧
    (loadOpenClawPlugins cfg lg (l1 ++ p :: l2)).skillPlugins =
      (loadOpenClawPlugins cfg lg (l1 ++ l2)).skillPlugins ∧
    (loadOpenClawPlugins cfg lg (l1 ++ p :: l2)).memoryPlugins =
      (loadOpenClawPlugins cfg lg (l1 ++ l2)).memoryPlugins := by
  have hfl := loadOnePlugin_failure cfg lg (loadedAfter cfg lg [] l1) p hallow hen hfail
  have hstat : (loadOnePlugin cfg lg (loadedAfter cfg lg [] l1) p).1.status ≠
      PluginStatus.loaded := by
    rw [hfl.1]
    simp
  have hsplit := load_plugins_split_skip cfg lg l1 l2 p hstat
  have hbase := load_plugins_base cfg lg l1 l2
  have hA : ((processPlugins cfg lg [] l1).map
      (fun r => (r : PluginOutcome × List Registration).1)).length = l1.length := by
    rw [List.length_map, processPlugins_length]
  have hregs := allRegs_skip cfg lg l1 l2 p hstat
  refine ⟨?_, ?_, ?_, ?_, ?_, ?_, ?_, ?_, ?_, ?_, ?_⟩
  · show ((processPlugins cfg lg [] (l1 ++ p :: l2)).map (fun r => r.1)).length = _
    rw [List.length_map, processPlugins_length]
    simp
    omega
  · refine ⟨(loadOnePlugin cfg lg (loadedAfter cfg lg [] l1) p).1,
      load_plugins_middle cfg lg l1 l2 p, loadOnePlugin_fst_id cfg lg _ p, hfl.1⟩
  · rw [hsplit, hbase, ← hA, List.take_left, List.take_left]
  · rw [hsplit, hbase]
    have h1 : (processPlugins cfg lg [] l1).map
        (fun r => (r : PluginOutcome × List Registration).1) ++
        (loadOnePlugin cfg lg (loadedAfter cfg lg [] l1) p).1 ::
          (processPlugins cfg lg (loadedAfter cfg lg [] l1) l2).map (fun r => r.1) =
        ((processPlugins cfg lg [] l1).map (fun r => r.1) ++
          [(loadOnePlugin cfg lg (loadedAfter cfg lg [] l1) p).1]) ++
          (processPlugins cfg lg (loadedAfter cfg lg [] l1) l2).map (fun r => r.1) := by
      simp
    rw [h1]
    have h2 : ((processPlugins cfg lg [] l1).map
        (fun r => (r : PluginOutcome × List Registration).1) ++
        [(loadOnePlugin cfg lg (loadedAfter cfg lg [] l1) p).1]).length = l1.length + 1 := by
      rw [List.length_append, hA]
      rfl
    rw [← h2, List.drop_left, ← hA, List.drop_left]
  · show collectKind RegKind.hook (allRegs cfg lg (l1 ++ p :: l2)) = _
    rw [hregs]
    rfl
  · show collectKind RegKind.typedHook (allRegs cfg lg (l1 ++ p :: l2)) = _
    rw [hregs]
    rfl
  · show collectKind RegKind.tool (allRegs cfg lg (l1 ++ p :: l2)) = _
    rw [hregs]
    rfl
  · show collectKind RegKind.command (allRegs cfg lg (l1 ++ p :: l2)) = _
    rw [hregs]
    rfl
  · show collectKind RegKind.channel (allRegs cfg lg (l1 ++ p :: l2)) = _
    rw [hregs]
    rfl
  · show collectKind RegKind.skill (allRegs cfg lg (l1 ++ p :: l2)) = _
    rw [hregs]
    rfl
  · show collectKind RegKind.memory (allRegs cfg lg (l1 ++ p :: l2)) = _
    rw [hregs]
    rfl

/-- C5 witness: a plugin with an unparseable manifest between two healthy
plugins still gets its own error outcome at its own position. -/
theorem c5_loader_failures_isolated_witness :
    ∃ o, (loadOpenClawPlugins cfgAllowAll unitLogger
        [goodPlugin "alpha", badManifestPlugin "beta", goodPlugin "gamma"]).plugins[1]? =
      some o ∧ o.id = "beta" ∧ o.status = PluginStatus.error :=
  (c5_loader_failures_isolated cfgAllowAll unitLogger
    [goodPlugin "alpha"] [goodPlugin "gamma"] (badManifestPlugin "beta")
    rfl rfl (Or.inl ⟨"unexpected token", rfl⟩)).2.1

/-! ## C7 -/

/-- C7: wildcard allow-list semantics — the wildcard permits every
discovered id past the allow-list check (an enabled plugin under the
wildcard is never skipped); a concrete list permits exactly the listed ids,
and an unlisted id ends skipped with no registry contributions; an id whose
configuration entry has enabled false is skipped even when it is
allow-listed. -/
theorem c7_allow_list_semantics {σ : Type} (cfg : PluginsConfig) (lg : HostLogger σ)
    (l1 l2 : List (DiscoveredPlugin σ)) (p : DiscoveredPlugin σ) :
    (∀ id, allowPermits AllowList.wildcard id = true) ∧
    (∀ ids id, allowPermits (AllowList.listed ids) id = ids.contains id) ∧
    (∀ ids, cfg.allow = AllowList.listed ids → ids.contains p.id = false →
      (loadOpenClawPlugins cfg lg (l1 ++ p :: l2)).plugins[l1.length]? =
        some ⟨p.id, PluginStatus.skipped, none⟩ ∧
      ((∀ q, (q ∈ l1 ∨ q ∈ l2) → q.id ≠ p.id) →
        (∀ r ∈ (loadOpenClawPlugins cfg lg (l1 ++ p :: l2)).hooks, r.pluginId ≠ p.id) ∧
        (∀ r ∈ (loadOpenClawPlugins cfg lg (l1 ++ p :: l2)).typedHooks,
          r.pluginId ≠ p.id) ∧
        (∀ r ∈ (loadOpenClawPlugins cfg lg (l1 ++ p :: l2)).tools, r.pluginId ≠ p.id) ∧
        (∀ r ∈ (loadOpenClawPlugins cfg lg (l1 ++ p :: l2)).commands, r.pluginId ≠ p.id) ∧
        (∀ r ∈ (loadOpenClawPlugins cfg lg (l1 ++ p :: l2)).channelPlugins,
          r.pluginId ≠ p.id) ∧
        (∀ r ∈ (loadOpenClawPlugins cfg lg (l1 ++ p :: l2)).skillPlugins,
          r.pluginId ≠ p.id) ∧
        (∀ r ∈ (loadOpenClawPlugins cfg lg (l1 ++ p :: l2)).memoryPlugins,
          r.pluginId ≠ p.id))) ∧
    (pluginEnabled cfg p.id = false →
      (loadOpenClawPlugins cfg lg (l1 ++ p :: l2)).plugins[l1.length]? =
        some ⟨p.id, PluginStatus.skipped, none⟩) ∧
    (cfg.allow = AllowList.wildcard → pluginEnabled cfg p.id = true →
      ∀ o, (loadOpenClawPlugins cfg lg (l1 ++ p :: l2)).plugins[l1.length]? = some o →
        o.status ≠ PluginStatus.skipped) := by
  refine ⟨fun id => rfl, fun ids id => rfl, ?_, ?_, ?_⟩
  · intro ids hcfg hnotin
    have hperm : allowPermits cfg.allow p.id = false := by
      rw [hcfg]
      exact hnotin
    have hmid := loadOnePlugin_not_allowed cfg lg (loadedAfter cfg lg [] l1) p hperm
    have hstat : (loadOnePlugin cfg lg (loadedAfter cfg lg [] l1) p).1.status ≠
        PluginStatus.loaded := by
      rw [hmid]
      simp
    constructor
    · rw [load_plugins_middle, hmid]
    · intro hothers
      have hnomid := allRegs_no_middle cfg lg l1 l2 p hstat hothers
      exact ⟨fun r hr => hnomid r (List.mem_of_mem_filter hr),
        fun r hr => hnomid r (List.mem_of_mem_filter hr),
        fun r hr => hnomid r (List.mem_of_mem_filter hr),
        fun r hr => hnomid r (List.mem_of_mem_filter hr),
        fun r hr => hnomid r (List.mem_of_mem_filter hr),
        fun r hr => hnomid r (List.mem_of_mem_filter hr),
        fun r hr => hnomid r (List.mem_of_mem_filter hr)⟩
  · intro hdis
    rw [load_plugins_middle, loadOnePlugin_disabled cfg lg (loadedAfter cfg lg [] l1) p hdis]
  · intro hcfg hen o ho
    rw [load_plugins_middle] at ho
    have ho' := Option.some.inj ho
    rw [← ho']
    exact loadOnePlugin_not_skipped cfg lg (loadedAfter cfg lg [] l1) p
      (by rw [hcfg]; rfl) hen

/-- C7 witness: a load whose allow-list names only alpha — the discovered
plugin beta ends skipped. -/
theorem c7_allow_list_semantics_witness :
    (loadOpenClawPlugins cfgListedAlpha unitLogger
        [goodPlugin "alpha", goodPlugin "beta"]).plugins[1]? =
      some ⟨"beta", PluginStatus.skipped, none⟩ :=
  ((c7_allow_list_semantics cfgListedAlpha unitLogger
    [goodPlugin "alpha"] [] (goodPlugin "beta")).2.2.1 ["alpha"] rfl rfl).1

/-! ## C8 -/

/-- C8: manifest configuration validation with additionalProperties false —
a configuration that is not an object (array or primitive) is rejected; a
configuration object carrying any property the schema does not declare is
rejected with a failure naming an offending property; and at the loader
level such a plugin's outcome is error with the detail naming the extra
key. -/
theorem c8_config_schema_rejection {σ : Type} (cfg : PluginsConfig) (lg : HostLogger σ)
    (l1 l2 : List (DiscoveredPlugin σ)) (p : DiscoveredPlugin σ) :
    (∀ schema xs, validateConfig schema (ConfigValue.arr xs) =
      Except.error ValidationError.notObject) ∧
    (∀ schema s, validateConfig schema (ConfigValue.str s) =
      Except.error ValidationError.notObject) ∧
    (∀ schema n, validateConfig schema (ConfigValue.num n) =
      Except.error ValidationError.notObject) ∧
    (∀ schema b, validateConfig schema (ConfigValue.boolean b) =
      Except.error ValidationError.notObject) ∧
    (∀ schema, validateConfig schema ConfigValue.null =
      Except.error ValidationError.notObject) ∧
    (∀ schema fields, (∃ f ∈ fields, schema.properties.contains f.1 = false) →
      ∃ f ∈ fields, schema.properties.contains f.1 = false ∧
        validateConfig schema (ConfigValue.obj fields) =
          Except.error (ValidationError.unknownProperty f.1)) ∧
    (∀ (man : PluginManifest) (fields : List (String × ConfigValue)),
      allowPermits cfg.allow p.id = true →
      pluginEnabled cfg p.id = true →
      (∀ q ∈ l1, q.id ≠ p.id) →
      p.manifest = Except.ok man →
      rawConfigFor cfg p.id = ConfigValue.obj fields →
      (∃ f ∈ fields, man.configSchema.properties.contains f.1 = false) →
      ∃ k, (∃ f ∈ fields, f.1 = k ∧ man.configSchema.properties.contains k = false) ∧
        (loadOpenClawPlugins cfg lg (l1 ++ p :: l2)).plugins[l1.length]? =
          some ⟨p.id, PluginStatus.error, some ("unknown config property: " ++ k)⟩) := by
  refine ⟨fun schema xs => rfl, fun schema s => rfl, fun schema n => rfl,
    fun schema b => rfl, fun schema => rfl, validateConfig_unknown, ?_⟩
  intro man fields hallow hen hno1 hman hraw hbad
  obtain ⟨f, hfm, hfc, hvalerr⟩ := validateConfig_unknown man.configSchema fields hbad
  have hnotmid : p.id ∉ loadedAfter cfg lg [] l1 := by
    intro hmem
    rcases loadedAfter_mem cfg lg l1 [] p.id hmem with h0 | ⟨q, hq, hid⟩
    · simp at h0
    · exact hno1 q hq hid.symm
  have hval' : validateConfig man.configSchema (rawConfigFor cfg p.id) =
      Except.error (ValidationError.unknownProperty f.1) := by
    rw [hraw]
    exact hvalerr
  have hmid := loadOnePlugin_validation_error cfg lg (loadedAfter cfg lg [] l1) p man
    (ValidationError.unknownProperty f.1) hallow hen hnotmid hman hval'
  refine ⟨f.1, ⟨f, hfm, rfl, hfc⟩, ?_⟩
  rw [load_plugins_middle, hmid]
  rfl

/-- C8 witness: a plugin whose configuration carries the undeclared key
foo is rejected with an error naming foo. -/
theorem c8_config_schema_rejection_witness :
    ∃ k, (∃ f ∈ [("foo", ConfigValue.str "bar")], f.1 = k ∧
        (({ properties := [] } : ConfigSchema)).properties.contains k = false) ∧
      (loadOpenClawPlugins cfgWithFoo unitLogger
          [goodPlugin "beta"]).plugins[0]? =
        some ⟨"beta", PluginStatus.error, some ("unknown config property: " ++ k)⟩ :=
  (c8_config_schema_rejection cfgWithFoo unitLogger [] [] (goodPlugin "beta")).2.2.2.2.2.2
    { id := "beta", configSchema := { properties := [] } }
    [("foo", ConfigValue.str "bar")] rfl rfl (by simp) rfl rfl
    ⟨("foo", ConfigValue.str "bar"), by simp, rfl⟩

end OpenClaw
